import Mathlib

/-!
Verification development for the semantic-analysis pass in
`src/frontend/checker.rs` (xenon compiler front end).

The Rust `SymbolTable<'a> = Vec<HashMap<&'a str, SymbolTableItem>>` is
modelled as a `List` of association lists.  The Vec's *last* element is
the top (most recently pushed) frame; we model the Vec with its top at
the *head* of the Lean list, so `iter().rev()` (innermost-first scanning
in `search`) becomes plain head-to-tail traversal, `last_mut` becomes the
list head, and `push`/`pop` become `cons`/`tail`.

The expression collaborator (`expr_type`, `const_eval`, `check_expr` from
`src/frontend/expr`) and the AST types (`src/frontend/ast`) are not part
of the given sources; they are modelled from the spec (§3, §6) and marked
as such in their doc comments.  Everything else is translated directly
from `checker.rs`.
-/

/-- The source's `Type` enum (`src/frontend/expr/types.rs`, re-exported in
`checker.rs` line 3): `Int`, `Void`, `Pointer(Vec<usize>)`. -/
inductive Ty where
  | Int
  | Void
  | Pointer (dims : List Nat)
deriving DecidableEq, Repr

/-- `SymbolTableItem` from `checker.rs` lines 6-13. -/
inductive SymbolTableItem where
  | ConstVariable (v : Int)
  | Variable
  | ConstArray (dims : List Nat) (vals : List Int)
  | Array (dims : List Nat)
  | Function (ret : Ty) (params : List Ty)
  | Pointer (dims : List Nat)
deriving DecidableEq, Repr

/-- One scope frame: the Rust `HashMap<&'a str, SymbolTableItem>`,
modelled as an association list (only `get`/`insert` are used). -/
abbrev Frame := List (String × SymbolTableItem)

/-- `SymbolTable` from `checker.rs` line 17.  Head of the list = the
Vec's last element = the current (top / innermost) frame. -/
abbrev SymbolTable := List Frame

/-- The error taxonomy.  The source formats each error as a `String`
(`format!`); we model each distinct error construction site of
`checker.rs` as one constructor, plus the spec-modelled errors raised by
the expression collaborator (spec §7). -/
inductive CheckError where
  | DuplicateDefinition (id : String)
  | NotIntExpr
  | IllegalCondition
  | MissingReturnValue
  | UnexpectedReturnValue
  | ReturnTypeMismatch
  | IllegalJump
  | UndefinedIdentifier (id : String)
  | NotConstant
  | ExprTypeError
deriving DecidableEq, Repr

/-- Outcome of a checker operation.  The Rust code returns
`Result<(), String>`; additionally `todo!()` (lines 80, 92, 105) and
`.unwrap()` (line 44) abort the process, which we model as the third
constructor `.panic` so that abnormal termination stays observable. -/
inductive Outcome where
  | ok
  | error (e : CheckError)
  | panic
deriving DecidableEq, Repr

/-- Models `HashMap::get` on a frame: the value bound to `id`, if any. -/
def hashmap_get : Frame → String → Option SymbolTableItem
  | [], _ => none
  | (k, v) :: rest, id => if k = id then some v else hashmap_get rest id

/-- Models `HashMap::insert` (used at `checker.rs` line 44): binds `id`
to `sym`, *replacing* any previous binding, and returns the previous
value together with the updated frame. -/
def hashmap_insert : Frame → String → SymbolTableItem → Option SymbolTableItem × Frame
  | [], id, sym => (none, [(id, sym)])
  | (k, v) :: rest, id, sym =>
    if k = id then (some v, (id, sym) :: rest)
    else
      let p := hashmap_insert rest id sym
      (p.1, (k, v) :: p.2)

/-- `Scope::search` (`checker.rs` lines 34-41): scan the frames from the
most recently pushed one (`iter().rev()` on the Vec = head-first here);
first match wins; `none` when no frame binds the identifier. -/
def search : SymbolTable → String → Option SymbolTableItem
  | [], _ => none
  | f :: rest, id =>
    match hashmap_get f id with
    | some info => some info
    | none => search rest id

/-- `Scope::insert_definition` (`checker.rs` lines 43-48): insert into the
top frame (`last_mut`); if the map already held the name the call returns
the duplicate-definition error — note the new symbol has nevertheless
replaced the old binding.  `last_mut().unwrap()` aborts on an empty
table, modelled as `.panic`. -/
def insert_definition (t : SymbolTable) (id : String) (sym : SymbolTableItem) : SymbolTable × Outcome :=
  match t with
  | [] => ([], .panic)
  | top :: rest =>
    let p := hashmap_insert top id sym
    match p.1 with
    | some _ => (p.2 :: rest, .error (.DuplicateDefinition id))
    | none => (p.2 :: rest, .ok)

/-- `Scope::enter_scope` (`checker.rs` lines 50-52): push a fresh frame. -/
def enter_scope (t : SymbolTable) : SymbolTable := [] :: t

/-- `Scope::exit_scope` (`checker.rs` lines 54-56): pop the top frame
(`Vec::pop` is a no-op on an empty vector, as is `List.tail`). -/
def exit_scope (t : SymbolTable) : SymbolTable := t.tail

/-- Modelled from the spec: expressions of the AST layer
(`src/frontend/ast`, not among the given sources).  Spec §3/§6 require
literals, identifier references and calls; these are the forms the
checker's rules depend on. -/
inductive Expr where
  | Num (n : Int)
  | Var (id : String)
  | Call (f : String) (args : List Expr)

/-- Modelled from the spec: `const_eval(table) -> integer` of the
expression collaborator (spec §6), "failing if the expression is not
reducible to a compile-time integer constant (e.g., it calls a function
or reads a non-constant variable)". -/
def const_eval (t : SymbolTable) : Expr → Except CheckError Int
  | .Num n => .ok n
  | .Var id =>
    match search t id with
    | some (.ConstVariable v) => .ok v
    | some _ => .error .NotConstant
    | none => .error (.UndefinedIdentifier id)
  | .Call _ _ => .error .NotConstant

mutual
/-- Modelled from the spec: `expr_type(table) -> Type` of the expression
collaborator (spec §6), "failing if the expression references an
undefined name or is otherwise ill-typed". -/
def expr_type (t : SymbolTable) : Expr → Except CheckError Ty
  | .Num _ => .ok .Int
  | .Var id =>
    match search t id with
    | none => .error (.UndefinedIdentifier id)
    | some (.ConstVariable _) => .ok .Int
    | some .Variable => .ok .Int
    | some (.ConstArray dims _) => .ok (.Pointer dims)
    | some (.Array dims) => .ok (.Pointer dims)
    | some (.Pointer dims) => .ok (.Pointer dims)
    | some (.Function _ _) => .error .ExprTypeError
  | .Call f args =>
    match search t f with
    | none => .error (.UndefinedIdentifier f)
    | some (.Function ret params) =>
      match expr_type_list t args with
      | .error e => .error e
      | .ok tys => if tys = params then .ok ret else .error .ExprTypeError
    | some _ => .error .ExprTypeError

/-- Modelled from the spec: argument types of a call, first failure
propagated (spec §6). -/
def expr_type_list (t : SymbolTable) : List Expr → Except CheckError (List Ty)
  | [] => .ok []
  | e :: rest =>
    match expr_type t e with
    | .error er => .error er
    | .ok ty =>
      match expr_type_list t rest with
      | .error er => .error er
      | .ok tys => .ok (ty :: tys)
end

/-- Modelled from the spec: `check_expr` of the expression collaborator
(called at `checker.rs` line 116); spec §4.3: an expression statement
"must type-check (result type unconstrained, value discarded)". -/
def check_expr (t : SymbolTable) (e : Expr) : Except CheckError Unit :=
  match expr_type t e with
  | .error er => .error er
  | .ok _ => .ok ()

/-- Modelled from the spec: initializer-list shapes of the AST layer
(spec §3/§4.2): braces open a nested level, other elements are scalar
expressions.  The checker never inspects this payload (its handler is
`todo!()`). -/
inductive InitListItem where
  | expr (e : Expr)
  | list (items : List InitListItem)

abbrev InitializerList := List InitListItem

/-- Modelled from the spec: the `Definition` variants of the AST layer
(spec §3); payloads as matched by `checker.rs` lines 84-106. -/
inductive Definition where
  | ConstVariableDefinition (identifier : String) (init : Expr)
  | ConstArrayDefinition (identifier : String) (lengths : List Expr) (init_list : Option InitializerList)
  | VariableDefinition (identifier : String) (init : Option Expr)
  | ArrayDefinition (identifier : String) (lengths : List Expr) (init_list : Option InitializerList)

mutual
/-- Modelled from the spec: the `Statement` variants (spec §3). -/
inductive Statement where
  | Expr (e : Expr)
  | If (condition : Expr) (then_block : Block) (else_block : Block)
  | While (condition : Expr) (block : Block)
  | Return (expr : Option Expr)
  | Break
  | Continue

/-- Modelled from the spec: block items (spec §3). -/
inductive BlockItem where
  | Definition (d : Definition)
  | Block (b : Block)
  | Statement (s : Statement)

/-- Modelled from the spec: a block is an ordered sequence of items
(spec §3); given as its own inductive list so the walker can recurse
structurally. -/
inductive Block where
  | nil
  | cons (item : BlockItem) (rest : Block)
end

/-- `Checker::process_init_list` (`checker.rs` lines 79-81): the body is
`todo!()`, so any call aborts the process. -/
def process_init_list (t : SymbolTable) (_init_list : InitializerList) : SymbolTable × Outcome :=
  (t, .panic)

/-- `Checker::process_definition` (`checker.rs` lines 83-107).  The two
array arms are `todo!()` (lines 92, 105) and abort the process. -/
def process_definition (t : SymbolTable) (d : Definition) : SymbolTable × Outcome :=
  match d with
  | .ConstVariableDefinition id init =>
    match const_eval t init with
    | .error er => (t, .error er)
    | .ok v => insert_definition t id (.ConstVariable v)
  | .ConstArrayDefinition _ _ _ => (t, .panic)
  | .VariableDefinition id init =>
    match init with
    | some e =>
      match expr_type t e with
      | .error er => (t, .error er)
      | .ok .Int => insert_definition t id .Variable
      | .ok _ => (t, .error .NotIntExpr)
    | none => insert_definition t id .Variable
  | .ArrayDefinition _ _ _ => (t, .panic)

mutual
/-- The `for block_item in block.iter_mut()` loop of
`Checker::process_block` (`checker.rs` lines 111-149), stopping at the
first failure.  Recursive entries into child blocks appear here with the
scope push/pop of `process_block` written out, so that the recursion is
structural; `process_block` below is the (definitionally equal) wrapper. -/
def process_items (t : SymbolTable) (b : Block) (return_void in_while : Bool) : SymbolTable × Outcome :=
  match b with
  | .nil => (t, .ok)
  | .cons item rest =>
    match process_block_item t item return_void in_while with
    | (t', .ok) => process_items t' rest return_void in_while
    | (t', r) => (t', r)

/-- One arm of the `match block_item` in `process_block`
(`checker.rs` lines 112-148). -/
def process_block_item (t : SymbolTable) (item : BlockItem) (return_void in_while : Bool) : SymbolTable × Outcome :=
  match item with
  | .Definition d => process_definition t d
  | .Block b =>
    match process_items (enter_scope t) b return_void in_while with
    | (t', .ok) => (exit_scope t', .ok)
    | (t', r) => (t', r)
  | .Statement s => process_statement t s return_void in_while

/-- The `match statement.as_mut()` of `process_block`
(`checker.rs` lines 115-147).  Note the `While` arm (line 130) passes
`in_while` through unchanged. -/
def process_statement (t : SymbolTable) (s : Statement) (return_void in_while : Bool) : SymbolTable × Outcome :=
  match s with
  | .Expr e =>
    match check_expr t e with
    | .error er => (t, .error er)
    | .ok _ => (t, .ok)
  | .If condition then_block else_block =>
    match expr_type t condition with
    | .error er => (t, .error er)
    | .ok .Void => (t, .error .IllegalCondition)
    | .ok _ =>
      match process_items (enter_scope t) then_block return_void in_while with
      | (t', .ok) =>
        match process_items (enter_scope (exit_scope t')) else_block return_void in_while with
        | (t'', .ok) => (exit_scope t'', .ok)
        | (t'', r) => (t'', r)
      | (t', r) => (t', r)
  | .While condition block =>
    match expr_type t condition with
    | .error er => (t, .error er)
    | .ok .Void => (t, .error .IllegalCondition)
    | .ok _ =>
      match process_items (enter_scope t) block return_void in_while with
      | (t', .ok) => (exit_scope t', .ok)
      | (t', r) => (t', r)
  | .Return expr =>
    match expr, return_void with
    | none, true => (t, .ok)
    | none, false => (t, .error .MissingReturnValue)
    | some _, true => (t, .error .UnexpectedReturnValue)
    | some e, false =>
      match expr_type t e with
      | .error er => (t, .error er)
      | .ok .Int => (t, .ok)
      | .ok _ => (t, .error .ReturnTypeMismatch)
  | .Break => if !in_while then (t, .error .IllegalJump) else (t, .ok)
  | .Continue => if !in_while then (t, .error .IllegalJump) else (t, .ok)
end

/-- `Checker::process_block` (`checker.rs` lines 109-152): enter a scope,
process the items in order, and pop the frame — the `exit_scope` call at
line 150 runs only when every item succeeded; on the error path the `?`
operator returns first and the pushed frame stays. -/
def process_block (t : SymbolTable) (b : Block) (return_void in_while : Bool) : SymbolTable × Outcome :=
  match process_items (enter_scope t) b return_void in_while with
  | (t', .ok) => (exit_scope t', .ok)
  | (t', r) => (t', r)

/-- The `Checker` struct (`checker.rs` lines 59-61). -/
structure Checker where
  table : SymbolTable

/-- `Checker::new` (`checker.rs` lines 63-77): one frame pre-registering
the eight built-in intrinsics. -/
def Checker.new : Checker :=
  ⟨[[("getint", .Function .Int []),
     ("getch", .Function .Int []),
     ("getarray", .Function .Int [.Pointer []]),
     ("putint", .Function .Void [.Int]),
     ("putch", .Function .Void [.Int]),
     ("putarray", .Function .Int [.Int, .Pointer []]),
     ("starttime", .Function .Void []),
     ("stoptime", .Function .Void [])]]⟩

deriving instance DecidableEq for Except

/-- Entering a nested block from the item loop (`checker.rs` line 114) is
exactly a recursive `process_block` call. -/
theorem process_block_item_block (t : SymbolTable) (b : Block) (rv iw : Bool) :
    process_block_item t (.Block b) rv iw = process_block t b rv iw := rfl

/-- The `While` arm (`checker.rs` lines 128-131) in terms of
`process_block`: the body is processed with the *unchanged* `in_while`
flag. -/
theorem process_statement_while (t : SymbolTable) (c : Expr) (b : Block) (rv iw : Bool) :
    process_statement t (.While c b) rv iw =
    (match expr_type t c with
     | .error er => (t, .error er)
     | .ok .Void => (t, .error .IllegalCondition)
     | .ok _ => process_block t b rv iw) := rfl

/-- The `If` arm (`checker.rs` lines 117-127) in terms of
`process_block`. -/
theorem process_statement_if (t : SymbolTable) (c : Expr) (b1 b2 : Block) (rv iw : Bool) :
    process_statement t (.If c b1 b2) rv iw =
    (match expr_type t c with
     | .error er => (t, .error er)
     | .ok .Void => (t, .error .IllegalCondition)
     | .ok _ =>
       match process_block t b1 rv iw with
       | (t', .ok) => process_block t' b2 rv iw
       | (t', r) => (t', r)) := by
  cases h : expr_type t c with
  | error er => simp [process_statement, h]
  | ok ty =>
    cases ty
    case Void => simp [process_statement, h]
    all_goals
      simp only [process_statement, process_block, h]
      cases h2 : process_items (enter_scope t) b1 rv iw with
      | mk t' r => cases r <;> simp

/-- Modelled from the spec: function parameters of the AST layer
(spec §3): `{Int(name), Pointer(name, trailing-dimension expressions)}`. -/
inductive Parameter where
  | Int (identifier : String)
  | Pointer (identifier : String) (lengths : List Expr)

/-- Modelled from the spec: global items of a translation unit (spec §3). -/
inductive GlobalItem where
  | Definition (d : Definition)
  | FunctionDefinition (return_void : Bool) (identifier : String) (parameter_list : List Parameter) (block : Block)

abbrev TranslationUnit := List GlobalItem

/-- The `*i as usize` cast at `checker.rs` lines 178 and 195: an i32
value reinterpreted as a 64-bit unsigned machine integer. -/
def as_usize (i : Int) : Nat := (i.emod (2 ^ 64)).toNat

/-- Modelled from the spec: evaluate each trailing-dimension expression
in order (`checker.rs` lines 166-169), replacing it by the literal it
evaluated to — spec §5 records that `const_eval` annotates the node in
place, which is what makes the `unreachable!()` at lines 178/195 safe. -/
def const_eval_exprs (t : SymbolTable) : List Expr → Except CheckError (List Expr)
  | [] => .ok []
  | e :: rest =>
    match const_eval t e with
    | .error er => .error er
    | .ok v =>
      match const_eval_exprs t rest with
      | .error er => .error er
      | .ok rest' => .ok (.Num v :: rest')

/-- The loop at `checker.rs` lines 164-170: constant-evaluate every
pointer-parameter length in the enclosing scope, first failure
propagated; scalar parameters are untouched. -/
def const_eval_parameters (t : SymbolTable) : List Parameter → Except CheckError (List Parameter)
  | [] => .ok []
  | .Int id :: rest =>
    match const_eval_parameters t rest with
    | .error er => .error er
    | .ok rest' => .ok (.Int id :: rest')
  | .Pointer id lengths :: rest =>
    match const_eval_exprs t lengths with
    | .error er => .error er
    | .ok lengths' =>
      match const_eval_parameters t rest with
      | .error er => .error er
      | .ok rest' => .ok (.Pointer id lengths' :: rest')

/-- The length-to-dimension mapping at `checker.rs` lines 176-179 and
193-196: after constant evaluation every length is a literal; on any
other form the source hits `unreachable!()` (we return 0 to stay total —
the arm is dead after a successful `const_eval_parameters`). -/
def pointer_dims (lengths : List Expr) : List Nat :=
  lengths.map fun e =>
    match e with
    | .Num i => as_usize i
    | _ => 0

/-- The `parameter_type` construction at `checker.rs` lines 171-182. -/
def parameter_type : Parameter → Ty
  | .Int _ => .Int
  | .Pointer _ lengths => .Pointer (pointer_dims lengths)

/-- The parameter-binding loop at `checker.rs` lines 187-200: scalar
parameters are bound as `Variable`, pointer parameters as
`Pointer(dims)`; the first duplicate aborts. -/
def insert_parameters (t : SymbolTable) : List Parameter → SymbolTable × Outcome
  | [] => (t, .ok)
  | .Int id :: rest =>
    match insert_definition t id .Variable with
    | (t', .ok) => insert_parameters t' rest
    | (t', r) => (t', r)
  | .Pointer id lengths :: rest =>
    match insert_definition t id (.Pointer (pointer_dims lengths)) with
    | (t', .ok) => insert_parameters t' rest
    | (t', r) => (t', r)

/-- One iteration of `Checker::check`'s loop (`checker.rs` lines
156-204).  For a function definition: constant-evaluate the
pointer-parameter lengths in the enclosing scope, build the signature,
register the function name in the enclosing frame (line 185), then open
the body scope (line 186), bind the parameters and walk the body with
`in_while = false` (line 201); the `exit_scope` at line 202 runs only on
success. -/
def check_global_item (t : SymbolTable) (item : GlobalItem) : SymbolTable × Outcome :=
  match item with
  | .Definition d => process_definition t d
  | .FunctionDefinition return_void id parameter_list block =>
    match const_eval_parameters t parameter_list with
    | .error er => (t, .error er)
    | .ok params =>
      let parameter_ty := params.map parameter_type
      let return_ty := if return_void then Ty.Void else Ty.Int
      match insert_definition t id (.Function return_ty parameter_ty) with
      | (t1, .ok) =>
        match insert_parameters (enter_scope t1) params with
        | (t2, .ok) =>
          match process_block t2 block return_void false with
          | (t3, .ok) => (exit_scope t3, .ok)
          | (t3, r) => (t3, r)
        | (t2, r) => (t2, r)
      | (t1, r) => (t1, r)

/-- `Checker::check` (`checker.rs` lines 154-207): process the global
items in source order, aborting at the first failure. -/
def check (t : SymbolTable) : TranslationUnit → SymbolTable × Outcome
  | [] => (t, .ok)
  | item :: rest =>
    match check_global_item t item with
    | (t', .ok) => check t' rest
    | (t', r) => (t', r)

/-- The previous value reported by `HashMap::insert` is exactly the value
`HashMap::get` would have returned before the insertion. -/
theorem hashmap_insert_fst (f : Frame) (id : String) (sym : SymbolTableItem) :
    (hashmap_insert f id sym).1 = hashmap_get f id := by
  induction f with
  | nil => rfl
  | cons kv rest ih =>
    obtain ⟨k, v⟩ := kv
    by_cases h : k = id <;> simp [hashmap_insert, hashmap_get, h, ih]

/-- After `HashMap::insert`, the key is bound to the new value. -/
theorem hashmap_get_insert_self (f : Frame) (id : String) (sym : SymbolTableItem) :
    hashmap_get (hashmap_insert f id sym).2 id = some sym := by
  induction f with
  | nil => simp [hashmap_insert, hashmap_get]
  | cons kv rest ih =>
    obtain ⟨k, v⟩ := kv
    by_cases h : k = id <;> simp [hashmap_insert, hashmap_get, h, ih]

/-- `insert_definition` only rewrites the top frame: the number of frames
is unchanged on every path. -/
theorem insert_definition_length (t : SymbolTable) (id : String) (sym : SymbolTableItem) :
    (insert_definition t id sym).1.length = t.length := by
  cases t with
  | nil => rfl
  | cons top rest =>
    simp only [insert_definition]
    cases h : (hashmap_insert top id sym).1 <;> simp

/-- `process_definition` never changes the number of frames (it only
inserts into the current frame, or returns the table untouched). -/
theorem process_definition_length (t : SymbolTable) (d : Definition) :
    (process_definition t d).1.length = t.length := by
  cases d with
  | ConstVariableDefinition id init =>
    simp only [process_definition]
    split <;> simp [insert_definition_length]
  | ConstArrayDefinition id lengths init_list => rfl
  | VariableDefinition id init =>
    simp only [process_definition]
    split
    · split <;> simp [insert_definition_length]
    · simp [insert_definition_length]
  | ArrayDefinition id lengths init_list => rfl

/-- Reduction step: if the item loop preserves the frame count, then a
successful `process_block` (push, loop, pop) also preserves it. -/
theorem process_block_length_of (t : SymbolTable) (b : Block) (rv iw : Bool)
    (hitems : (process_items (enter_scope t) b rv iw).2 = .ok →
              (process_items (enter_scope t) b rv iw).1.length = (enter_scope t).length) :
    (process_block t b rv iw).2 = .ok → (process_block t b rv iw).1.length = t.length := by
  simp only [process_block]
  split
  · rename_i t' heq
    intro _
    rw [heq] at hitems
    have := hitems rfl
    simp [enter_scope] at this
    simp [exit_scope, List.length_tail, this]
  · rename_i t' r heq
    intro hok
    simp at hok
    subst hok
    exact absurd heq (by trivial)

mutual
/-- A successful item loop leaves the frame count unchanged. -/
theorem process_items_length (t : SymbolTable) (b : Block) (rv iw : Bool) :
    (process_items t b rv iw).2 = .ok → (process_items t b rv iw).1.length = t.length := by
  cases b with
  | nil => intro _; rfl
  | cons item rest =>
    simp only [process_items]
    split
    · rename_i t' heq
      intro h2
      have e1 : t'.length = t.length := by
        have := process_block_item_length t item rv iw
        rw [heq] at this
        exact this rfl
      rw [process_items_length t' rest rv iw h2, e1]
    · rename_i t' r heq
      intro hok
      simp at hok
      subst hok
      exact absurd heq (by trivial)

/-- A successful block item leaves the frame count unchanged. -/
theorem process_block_item_length (t : SymbolTable) (item : BlockItem) (rv iw : Bool) :
    (process_block_item t item rv iw).2 = .ok → (process_block_item t item rv iw).1.length = t.length := by
  cases item with
  | Definition d => intro _; exact process_definition_length t d
  | Block b =>
    rw [process_block_item_block]
    exact process_block_length_of t b rv iw (process_items_length (enter_scope t) b rv iw)
  | Statement s => exact process_statement_length t s rv iw

/-- A successful statement leaves the frame count unchanged. -/
theorem process_statement_length (t : SymbolTable) (s : Statement) (rv iw : Bool) :
    (process_statement t s rv iw).2 = .ok → (process_statement t s rv iw).1.length = t.length := by
  cases s with
  | Expr e =>
    simp only [process_statement]
    split <;> simp
  | If condition b1 b2 =>
    rw [process_statement_if]
    split
    · simp
    · simp
    · split
      · rename_i t1 heq
        intro hok
        have hb2 := process_block_length_of t1 b2 rv iw (process_items_length (enter_scope t1) b2 rv iw) hok
        have hb1 := process_block_length_of t b1 rv iw (process_items_length (enter_scope t) b1 rv iw)
        rw [heq] at hb1
        rw [hb2]
        exact hb1 rfl
      · rename_i t1 r1 heq
        intro hok
        simp at hok
        subst hok
        exact absurd heq (by trivial)
  | While condition b =>
    rw [process_statement_while]
    split
    · simp
    · simp
    · exact process_block_length_of t b rv iw (process_items_length (enter_scope t) b rv iw)
  | Return expr =>
    simp only [process_statement]
    split
    · simp
    · simp
    · simp
    · split <;> simp
  | Break => cases iw <;> simp [process_statement]
  | Continue => cases iw <;> simp [process_statement]
end

/-- A function body consisting of a single expression statement that
calls the given name with no arguments. -/
def selfCallBody (id : String) : Block :=
  .cons (.Statement (.Expr (.Call id []))) .nil

/-- A function body consisting of a single `while (1) { break; }`
statement. -/
def whileBreakBody : Block :=
  .cons (.Statement (.While (.Num 1) (.cons (.Statement .Break) .nil))) .nil

/-- A one-function program whose body is `while (1) { break; }`. -/
def whileBreakProgram : TranslationUnit :=
  [.FunctionDefinition false "f" [] whileBreakBody]

/-- A jump statement nested only inside an `if` (no enclosing loop). -/
def breakOnlyInIf (jump : Statement) (cond : Expr) : Statement :=
  .If cond (.cons (.Statement jump) .nil) .nil

/-- C1: the claim says the while body is processed with the loop flag set
to true, so a break inside a while body never raises IllegalJump.  The
code (`checker.rs` line 130) passes `in_while` through unchanged — the
flag is never set to true anywhere — so a function whose body is
`while (1) break;` is rejected with IllegalJump, contradicting the
claim.  (See `process_statement_while` for the general fact that the
body is walked with the unchanged flag.) -/
theorem while_body_break_is_rejected :
    (check Checker.new.table whileBreakProgram).2 = .error .IllegalJump := by decide

/-- C2: the claim says processing a const-array or array definition
always returns a result (an error or a binding) and never aborts.  The
code's two array arms are `todo!()` (`checker.rs` lines 92 and 105), so
any array definition aborts the process, and so does a whole-program
check containing one. -/
theorem array_definitions_abort :
    (process_definition Checker.new.table (.ConstArrayDefinition "a" [.Num 1] (some [.expr (.Num 0)]))).2 = .panic
    ∧ (process_definition Checker.new.table (.ArrayDefinition "a" [.Num 2, .Num 3] none)).2 = .panic
    ∧ (check Checker.new.table [.Definition (.ConstArrayDefinition "a" [.Num 1] (some [.expr (.Num 0)]))]).2 = .panic := by
  decide

/-- C3 counterexample: `process_block` does not pop its frame on the
error path.  On the one-frame initial table, a block whose only item is
a stray `break` makes `process_block` return an error with the table two
frames deep — not the same frame count as before the call, refuting the
claim as stated. -/
theorem process_block_error_retains_frame :
    (process_block Checker.new.table (.cons (.Statement .Break) .nil) false false).2 = .error .IllegalJump
    ∧ (process_block Checker.new.table (.cons (.Statement .Break) .nil) false false).1.length = 2
    ∧ Checker.new.table.length = 1 := by decide

/-- C3 (amended): `process_block` pushes exactly one frame and pops it on
the success path, so on a successful return the frame count is unchanged;
on the error path the `?` operator returns before the `exit_scope` at
`checker.rs` line 150, so the pushed frame may remain (the whole table is
discarded on failure). -/
theorem process_block_balanced_on_success (t : SymbolTable) (b : Block) (rv iw : Bool) :
    (process_block t b rv iw).2 = .ok → (process_block t b rv iw).1.length = t.length :=
  process_block_length_of t b rv iw (process_items_length (enter_scope t) b rv iw)

/-- C3 witness: a successful `process_block` on a concrete input leaves
the frame count unchanged. -/
theorem process_block_balanced_on_success_witness :
    (process_block [[]] Block.nil false false).2 = .ok
    ∧ (process_block [[]] Block.nil false false).1.length = ([[]] : SymbolTable).length :=
  ⟨by decide, process_block_balanced_on_success [[]] Block.nil false false (by decide)⟩

/-- C4: for a function definition the name is registered in the
enclosing frame (`checker.rs` line 185) before the body scope is opened
(line 186): whenever the enclosing top frame does not already bind the
name, checking a function whose body calls its own name succeeds, and
afterwards the binding `Function(returnType, [])` is still visible in
the enclosing scope. -/
theorem function_registered_before_body
    (rv : Bool) (id : String) (f : Frame) (rest : List Frame)
    (h : hashmap_get f id = none) :
    (check (f :: rest) [.FunctionDefinition rv id [] (selfCallBody id)]).2 = .ok
    ∧ search (check (f :: rest) [.FunctionDefinition rv id [] (selfCallBody id)]).1 id
        = some (.Function (if rv then Ty.Void else Ty.Int) []) := by
  have hins := hashmap_insert_fst f id (.Function (if rv then Ty.Void else Ty.Int) [])
  rw [h] at hins
  have hget := hashmap_get_insert_self f id (.Function (if rv then Ty.Void else Ty.Int) [])
  constructor <;>
    simp [check, check_global_item, const_eval_parameters, insert_definition, insert_parameters,
          selfCallBody, process_block, process_items, process_block_item, process_statement,
          check_expr, expr_type, expr_type_list, search, enter_scope, exit_scope, hashmap_get,
          hins, hget]

/-- C4 witness: a concrete self-recursive `int f() { f(); }` checked in a
table with one empty frame succeeds, and `f` stays bound afterwards. -/
theorem function_registered_before_body_witness :
    (check [[]] [.FunctionDefinition false "f" [] (selfCallBody "f")]).2 = .ok
    ∧ search (check [[]] [.FunctionDefinition false "f" [] (selfCallBody "f")]).1 "f"
        = some (.Function (if false then Ty.Void else Ty.Int) []) :=
  function_registered_before_body false "f" [] [] (by decide)

/-- C5: `insert_definition` fails with DuplicateDefinition exactly when
the name is already bound in the current (top) frame, and succeeds
exactly when the top frame does not bind it — the outer frames `rest`
are arbitrary, so a name bound only in an outer frame (including a
built-in intrinsic) can be bound again in the inner frame. -/
theorem insert_definition_duplicate_iff (f : Frame) (rest : List Frame) (id : String) (sym : SymbolTableItem) :
    ((insert_definition (f :: rest) id sym).2 = .error (.DuplicateDefinition id) ↔ (hashmap_get f id).isSome)
    ∧ ((insert_definition (f :: rest) id sym).2 = .ok ↔ hashmap_get f id = none) := by
  have hfst := hashmap_insert_fst f id sym
  cases h : hashmap_get f id <;> simp [insert_definition, hfst, h]

/-- C6: the four-case return rule (`checker.rs` lines 132-141): a bare
return in a void function succeeds; a bare return in an int function is
MissingReturnValue; a return with a value in a void function is
UnexpectedReturnValue; a return with a value in an int function succeeds
exactly when the expression type-checks to `Int`, and an expression that
type-checks to any other type is a ReturnTypeMismatch. -/
theorem return_statement_rule (t : SymbolTable) (iw : Bool) :
    process_statement t (.Return none) true iw = (t, .ok)
    ∧ process_statement t (.Return none) false iw = (t, .error .MissingReturnValue)
    ∧ (∀ e, process_statement t (.Return (some e)) true iw = (t, .error .UnexpectedReturnValue))
    ∧ (∀ e, (process_statement t (.Return (some e)) false iw = (t, .ok) ↔ expr_type t e = .ok .Int))
    ∧ (∀ e ty, expr_type t e = .ok ty → ty ≠ .Int →
        process_statement t (.Return (some e)) false iw = (t, .error .ReturnTypeMismatch)) := by
  refine ⟨rfl, rfl, fun e => rfl, ?_, ?_⟩
  · intro e
    cases h : expr_type t e with
    | error er => simp [process_statement, h]
    | ok ty => cases ty <;> simp [process_statement, h]
  · intro e ty h hne
    cases ty
    case Int => exact absurd rfl hne
    all_goals simp [process_statement, h]

/-- C6 witness: concrete instances of the return rule — a bare return in
a void function, `return 1;` in an int function, and returning an array
name (typed as a pointer) from an int function. -/
theorem return_statement_rule_witness :
    process_statement [[]] (.Return none) true false = ([[]], .ok)
    ∧ (process_statement [[]] (.Return (some (.Num 1))) false false = ([[]], .ok)
        ↔ expr_type [[]] (.Num 1) = .ok .Int)
    ∧ process_statement [[("v", SymbolTableItem.Array [2])]]
        (.Return (some (.Var "v"))) false false
        = ([[("v", SymbolTableItem.Array [2])]], .error .ReturnTypeMismatch) :=
  ⟨(return_statement_rule [[]] false).1,
   (return_statement_rule [[]] false).2.2.2.1 (.Num 1),
   (return_statement_rule [[("v", SymbolTableItem.Array [2])]] false).2.2.2.2 (.Var "v")
     (.Pointer [2]) (by decide) (by decide)⟩

/-- C7: `Break` and `Continue` succeed when the loop-membership flag is
true and fail with IllegalJump when it is false (`checker.rs` lines
142-146); a jump nested only inside an `if` with no enclosing loop is
walked with the flag still false and therefore fails. -/
theorem break_continue_require_loop (t : SymbolTable) (rv : Bool) :
    process_statement t .Break rv true = (t, .ok)
    ∧ process_statement t .Continue rv true = (t, .ok)
    ∧ process_statement t .Break rv false = (t, .error .IllegalJump)
    ∧ process_statement t .Continue rv false = (t, .error .IllegalJump)
    ∧ (∀ cond ty, expr_type t cond = .ok ty → ty ≠ .Void →
        (process_statement t (breakOnlyInIf .Break cond) rv false).2 = .error .IllegalJump
        ∧ (process_statement t (breakOnlyInIf .Continue cond) rv false).2 = .error .IllegalJump) := by
  refine ⟨rfl, rfl, rfl, rfl, ?_⟩
  intro cond ty h hne
  cases ty
  case Void => exact absurd rfl hne
  all_goals simp [breakOnlyInIf, process_statement, process_items, process_block_item, h]

/-- C7 witness: a break with the flag set succeeds; a break nested only
inside `if (1)` with the flag clear raises IllegalJump. -/
theorem break_continue_require_loop_witness :
    process_statement [[]] .Break false true = ([[]], .ok)
    ∧ (process_statement [[]] (breakOnlyInIf .Break (.Num 1)) false false).2 = .error .IllegalJump :=
  ⟨(break_continue_require_loop [[]] false).1,
   ((break_continue_require_loop [[]] false).2.2.2.2 (.Num 1) .Int (by decide) (by decide)).1⟩

/-- C8: `search` returns `none` exactly when no frame binds the name,
and when it returns a symbol, that symbol comes from the
most-recently-pushed frame binding the name (the Vec's last element is
the head of the Lean list, so smaller indices are more recently pushed):
some frame at index `i` binds it to the returned value and every frame
pushed after it (index `j < i`) does not bind the name at all.  An inner
binding therefore shadows every outer one. -/
theorem search_innermost_first (t : SymbolTable) (id : String) :
    (search t id = none ↔ ∀ f ∈ t, hashmap_get f id = none)
    ∧ (∀ info, search t id = some info →
        ∃ i, ∃ h : i < t.length,
          hashmap_get (t.get ⟨i, h⟩) id = some info
          ∧ ∀ j, (hj : j < i) → hashmap_get (t.get ⟨j, Nat.lt_trans hj h⟩) id = none) := by
  induction t with
  | nil =>
    refine ⟨by simp [search], ?_⟩
    intro info h
    simp [search] at h
  | cons f rest ih =>
    obtain ⟨ih1, ih2⟩ := ih
    cases hf : hashmap_get f id with
    | some w =>
      refine ⟨⟨?_, ?_⟩, ?_⟩
      · intro hs
        rw [search, hf] at hs
        exact absurd hs (by simp)
      · intro hall
        have := hall f (List.mem_cons_self f rest)
        rw [hf] at this
        exact absurd this (by simp)
      · intro info hs
        rw [search, hf] at hs
        refine ⟨0, Nat.succ_pos _, ?_, ?_⟩
        · simpa [hf] using hs
        · intro j hj
          exact absurd hj (Nat.not_lt_zero j)
    | none =>
      have hstep : search (f :: rest) id = search rest id := by rw [search, hf]
      refine ⟨⟨?_, ?_⟩, ?_⟩
      · intro hs
        rw [hstep] at hs
        intro f' hf'
        rcases List.mem_cons.mp hf' with h1 | h1
        · rw [h1]; exact hf
        · exact ih1.mp hs f' h1
      · intro hall
        rw [hstep]
        exact ih1.mpr fun f' h' => hall f' (List.mem_cons_of_mem f h')
      · intro info hs
        rw [hstep] at hs
        obtain ⟨i, hi, hget, hbefore⟩ := ih2 info hs
        refine ⟨i + 1, Nat.succ_lt_succ hi, ?_, ?_⟩
        · simpa using hget
        · intro j hj
          cases j with
          | zero => simpa using hf
          | succ j' =>
            have := hbefore j' (Nat.lt_of_succ_lt_succ hj)
            simpa using this

/-- C8 witness: with `x` bound in both frames of a two-frame table,
`search` returns the inner binding and the characterization locates it
at the innermost index with nothing before it. -/
theorem search_innermost_first_witness :
    ∃ i, ∃ h : i < ([[("x", SymbolTableItem.Variable)], [("x", SymbolTableItem.ConstVariable 7)]] : SymbolTable).length,
      hashmap_get (([[("x", SymbolTableItem.Variable)], [("x", SymbolTableItem.ConstVariable 7)]] : SymbolTable).get ⟨i, h⟩) "x"
        = some SymbolTableItem.Variable
      ∧ ∀ j, (hj : j < i) →
          hashmap_get (([[("x", SymbolTableItem.Variable)], [("x", SymbolTableItem.ConstVariable 7)]] : SymbolTable).get ⟨j, Nat.lt_trans hj h⟩) "x" = none :=
  (search_innermost_first [[("x", .Variable)], [("x", .ConstVariable 7)]] "x").2 .Variable (by decide)

/-- C9: the fresh checker's table is exactly one frame of exactly the
eight built-in intrinsics with the spec's signatures (`getarray` and
`putarray` take a decayed `int*`, i.e. `Pointer([])`). -/
theorem checker_new_intrinsics :
    Checker.new.table.length = 1
    ∧ Checker.new.table.headI.length = 8
    ∧ hashmap_get Checker.new.table.headI "getint" = some (.Function .Int [])
    ∧ hashmap_get Checker.new.table.headI "getch" = some (.Function .Int [])
    ∧ hashmap_get Checker.new.table.headI "getarray" = some (.Function .Int [.Pointer []])
    ∧ hashmap_get Checker.new.table.headI "putint" = some (.Function .Void [.Int])
    ∧ hashmap_get Checker.new.table.headI "putch" = some (.Function .Void [.Int])
    ∧ hashmap_get Checker.new.table.headI "putarray" = some (.Function .Int [.Int, .Pointer []])
    ∧ hashmap_get Checker.new.table.headI "starttime" = some (.Function .Void [])
    ∧ hashmap_get Checker.new.table.headI "stoptime" = some (.Function .Void []) := by
  decide

/-- C10: when the name is already bound in the top frame,
`insert_definition` returns the DuplicateDefinition error, but by then
`HashMap::insert` has already replaced the old binding: the top frame of
the returned table maps the name to the *new* symbol, so the table is
changed on the error path. -/
theorem insert_definition_clobbers_on_duplicate
    (f : Frame) (rest : List Frame) (id : String) (sym old : SymbolTableItem)
    (h : hashmap_get f id = some old) :
    (insert_definition (f :: rest) id sym).2 = .error (.DuplicateDefinition id)
    ∧ hashmap_get ((insert_definition (f :: rest) id sym).1.headI) id = some sym := by
  have hfst := hashmap_insert_fst f id sym
  rw [h] at hfst
  simp [insert_definition, hfst, hashmap_get_insert_self]

/-- C10 witness: rebinding `x` in a frame that already binds it returns
the duplicate error with the new symbol already in place. -/
theorem insert_definition_clobbers_on_duplicate_witness :
    (insert_definition [[("x", SymbolTableItem.Variable)]] "x" (SymbolTableItem.ConstVariable 1)).2
      = .error (.DuplicateDefinition "x")
    ∧ hashmap_get ((insert_definition [[("x", SymbolTableItem.Variable)]] "x" (SymbolTableItem.ConstVariable 1)).1.headI) "x"
      = some (SymbolTableItem.ConstVariable 1) :=
  insert_definition_clobbers_on_duplicate [("x", .Variable)] [] "x" (.ConstVariable 1) .Variable (by decide)
